import Mathlib

/-!
Shallow embedding of `PYnab.py` (YNAB daily balance email script) and proofs
about it.

Modelling conventions:
* Currency: every amount handled by the script is obtained from the API's
  integer "milliunits" divided by 1000, and is then only added, negated,
  compared with 0 and rendered.  All such values are exact multiples of
  0.001, so they are embedded exactly as an integer count of milliunits
  (`Money`); `Money.toRat` gives the represented rational (dollar) value.
* Strings are Lean `String`s; Python string comparison is code-point
  lexicographic, embedded by `strLtCh` / `strLeCh` on the character lists.
* The filesystem touched by the script (the `.ynab_server_knowledge` cursor
  file, the report directory) is an explicit state record `FS`; HTTP
  responses and SMTP outcomes are supplied in a `World` record; observable
  actions (network calls, file writes/deletes, log lines, emails) are
  recorded in an `Event` trace.
* Python `sorted` is a stable sort; it is embedded as insertion sort with
  the corresponding order relation.
-/

/-- An exact currency amount: `mills` milliunits, i.e. `mills / 1000`
dollars.  This embeds the script's float dollar amounts, all of which are
exact multiples of 0.001. -/
structure Money where
  mills : Int
deriving DecidableEq, Repr

/-- The rational (dollar) value represented by a `Money`. -/
def Money.toRat (m : Money) : ℚ := (m.mills : ℚ) / 1000

/-- Embeds the script's `x / 1000` milliunit-to-dollar conversion. -/
def Money.ofMilli (n : Int) : Money := ⟨n⟩

/-- Addition of amounts (Python `+` on the represented values). -/
def Money.add (a b : Money) : Money := ⟨a.mills + b.mills⟩

/-- Absolute value (Python `abs`). -/
def Money.abs (a : Money) : Money := ⟨|a.mills|⟩

/-- Python whitespace test used by `str.strip()`. -/
def isPySpace (c : Char) : Bool :=
  c = ' ' || c = '\t' || c = '\n' || c = '\r' || c = '\x0b' || c = '\x0c'

/-- Embeds Python `str.strip()` on a character list. -/
def trimChars (l : List Char) : List Char :=
  ((l.dropWhile isPySpace).reverse.dropWhile isPySpace).reverse

/-- Python `<` on strings: code-point lexicographic strict order. -/
def strLtCh : List Char → List Char → Bool
  | [], [] => false
  | [], _ :: _ => true
  | _ :: _, [] => false
  | a :: as, b :: bs => a.toNat < b.toNat || (a.toNat == b.toNat && strLtCh as bs)

/-- Python `<=` on strings: code-point lexicographic order. -/
def strLeCh : List Char → List Char → Bool
  | [], _ => true
  | _ :: _, [] => false
  | a :: as, b :: bs => a.toNat < b.toNat || (a.toNat == b.toNat && strLeCh as bs)

/-- Embeds Python `s.split(',')`. -/
def splitCommaAux (acc : List Char) : List Char → List String
  | [] => [String.mk acc.reverse]
  | c :: rest =>
      if c = ',' then String.mk acc.reverse :: splitCommaAux [] rest
      else splitCommaAux (c :: acc) rest

/-- Embeds Python `s.split(',')`. -/
def splitComma (s : String) : List String := splitCommaAux [] s.data

/-- Embeds Python `s.strip()` on a `String`. -/
def pyStrip (s : String) : String := String.mk (trimChars s.data)

/-- Decimal digit characters of `n`, most significant first; `fuel`-driven
structural recursion (any `fuel ≥ n` gives the digits of `n`). -/
def natToCharsAux : Nat → Nat → List Char
  | 0, _ => []
  | _ + 1, 0 => []
  | fuel + 1, n + 1 => natToCharsAux fuel ((n + 1) / 10) ++ [Nat.digitChar ((n + 1) % 10)]

/-- Embeds Python `str` on a natural number. -/
def natToChars (n : Nat) : List Char := if n = 0 then ['0'] else natToCharsAux n n

/-- Embeds Python `str` on an `int` (possibly negative). -/
def intToChars (v : Int) : List Char :=
  if v < 0 then '-' :: natToChars v.natAbs else natToChars v.natAbs

/-- Inserts the thousands separators of Python's `,` format spec into a
reversed digit list: `k` counts the characters still allowed before the
next comma. -/
def commasRevAux : Nat → List Char → List Char
  | _, [] => []
  | Nat.succ k, c :: rest => c :: commasRevAux k rest
  | 0, c :: rest => ',' :: c :: commasRevAux 2 rest

/-- Inserts a comma after every three characters of a reversed digit list,
counted from the least significant end. -/
def commasRev (l : List Char) : List Char := commasRevAux 3 l

/-- Decimal rendering of `n` with thousands separators (Python `f"{n:,}"`). -/
def groupThousands (n : Nat) : String :=
  String.mk (commasRev (natToChars n).reverse).reverse

/-- Two-digit zero-padded rendering of `n < 100`. -/
def pad2 (n : Nat) : String :=
  String.mk (if n < 10 then '0' :: natToChars n else natToChars n)

/-- Number of cents shown by Python's `.2f` format for a non-negative amount
of `a` milliunits: milliunits over 10 rounded half-to-even, which is the
rounding of `f"{x:.2f}"` on the exact values the script produces. -/
def roundCentsNat (a : Nat) : Nat :=
  let q := a / 10
  let r := a % 10
  if r < 5 then q else if 5 < r then q + 1 else if q % 2 = 0 then q else q + 1

/-- Cents of the absolute value of an amount. -/
def absCents (m : Money) : Nat := roundCentsNat m.mills.natAbs

/-- Rendering of a non-negative number of cents as `X.XX` with two decimal
places and thousands separators (Python `f"{x:,.2f}"`). -/
def centsRender (c : Nat) : String :=
  groupThousands (c / 100) ++ "." ++ pad2 (c % 100)

/-- Embeds `YNABEmailer.format_currency` (PYnab.py lines 293-297):
negative amounts as `f"-${abs(amount):,.2f}"`, others as `f"${amount:,.2f}"`. -/
def format_currency (amount : Money) : String :=
  if amount.mills < 0 then "-$" ++ centsRender (absCents amount)
  else "$" ++ centsRender (absCents amount)

/-- Value of a decimal digit character, `none` for anything else. -/
def charToDigit? (c : Char) : Option Nat :=
  if '0' ≤ c ∧ c ≤ '9' then some (c.toNat - '0'.toNat) else none

/-- Accumulating decimal parser over characters; fails at the first
non-digit. -/
def parseAux (acc : Nat) : List Char → Option Nat
  | [] => some acc
  | c :: rest =>
      match charToDigit? c with
      | some d => parseAux (acc * 10 + d) rest
      | none => none

/-- Parses a non-empty all-digit character list (Python `int` rejects the
empty string). -/
def parseNatDigits : List Char → Option Nat
  | [] => none
  | l => parseAux 0 l

/-- Embeds Python `int(s)` on a stripped string: optional sign followed by
at least one decimal digit; any other input raises (here: `none`). -/
def parsePyInt (l : List Char) : Option Int :=
  match l with
  | [] => none
  | c :: rest =>
      if c = '-' then (parseNatDigits rest).map (fun n => -(Int.ofNat n))
      else if c = '+' then (parseNatDigits rest).map (fun n => Int.ofNat n)
      else (parseNatDigits l).map (fun n => Int.ofNat n)

/-- Failure of an HTTP call (non-2xx status or a payload whose expected
fields are missing), or the missing-`INCLUDED_GROUPS` `ValueError` raised
at the top of `get_categories`. -/
inductive ApiError
  | http (code : Nat)
  | malformed
  | configMissing
deriving DecidableEq, Repr

/-- An account record of the `/accounts` payload (the fields the script
reads). -/
structure ApiAccount where
  type : String
  closed : Bool
  deleted : Bool
  balance : Int
deriving DecidableEq, Repr

/-- The month record of the `/months/current` payload. -/
structure ApiMonth where
  month : String
  to_be_budgeted : Int
deriving DecidableEq, Repr

/-- Result of `get_budget_summary` (the dict built at lines 136-141 /
145-150). -/
structure BudgetSummary where
  budget_name : String
  month_name : String
  ready_to_assign : Money
  credit_debt_total : Money
deriving DecidableEq, Repr

/-- A category record of the `/categories` payload. -/
structure ApiCategory where
  name : String
  hidden : Bool
  deleted : Bool
  balance : Int
  budgeted : Int
  activity : Int
deriving DecidableEq, Repr

/-- A category-group record of the `/categories` payload. -/
structure ApiCategoryGroup where
  name : String
  hidden : Bool
  categories : List ApiCategory
deriving DecidableEq, Repr

/-- A processed category (the dict built at lines 272-278). -/
structure Category where
  group : String
  name : String
  balance : Money
  budgeted : Money
  activity : Money
deriving DecidableEq, Repr

/-- A transaction record of the `/transactions` payload (the fields the
script reads; nullable fields are `Option`). -/
structure ApiTransaction where
  approved : Bool
  deleted : Bool
  category_name : Option String
  amount : Int
  date : String
  payee_name : Option String
  memo : Option String
deriving DecidableEq, Repr

/-- A processed transaction (the dict built at lines 223-229). -/
structure Txn where
  date : String
  payee : String
  memo : String
  category : String
  amount : Money
deriving DecidableEq, Repr

/-- The `data` object of the `/transactions` payload. -/
structure TxnPayload where
  transactions : List ApiTransaction
  server_knowledge : Int
deriving DecidableEq, Repr

/-- The query-string variant chosen for the transactions request (lines
184-194). -/
inductive Query
  | delta (last_knowledge_of_server : Int)
  | since (since_date : String)
deriving DecidableEq, Repr

/-- Which API endpoint a network request targets. -/
inductive ApiCallKind
  | budget
  | month
  | accounts
  | categories
  | transactions (q : Query)
deriving DecidableEq, Repr

/-- The log lines the script can emit (structured; message text elided). -/
inductive LogMsg
  | summaryFetchWarning
  | readKnowledgeWarning
  | savedKnowledgeInfo
  | txnFetchWarning
  | categoriesFetchError
  | categoriesFilteredInfo
  | noCategoriesWarning
  | saveReportError
  | reportPathWarning
  | deleteError (filename : String)
  | emailError
  | runError
  | runCompletedInfo
deriving DecidableEq, Repr

/-- Observable actions of one run, in program order. -/
inductive Event
  | apiCall (k : ApiCallKind)
  | writeCursor (content : List Char)
  | writeReport (filename : String)
  | deleteFile (filename : String)
  | sendEmail
  | sendErrorEmail
  | log (m : LogMsg)
deriving DecidableEq, Repr

/-- A file of the report directory: name, modification time (epoch
seconds), content, and whether `os.remove` would succeed on it. -/
structure FileEntry where
  name : String
  mtime : Int
  content : String
  removable : Bool
deriving DecidableEq, Repr

/-- The filesystem state the script touches: the `.ynab_server_knowledge`
cursor file (its raw character content, `none` when absent) and the report
directory. -/
structure FS where
  cursor : Option (List Char)
  reportDirExists : Bool
  reports : List FileEntry
deriving DecidableEq, Repr

/-- The ambient world of one run: the outcome of each external interaction
and the values `datetime.now()` would render, all supplied as data. -/
structure World where
  budgetResp : Except ApiError String
  monthResp : Except ApiError ApiMonth
  accountsResp : Except ApiError (List ApiAccount)
  categoriesResp : Except ApiError (List ApiCategoryGroup)
  txnResp : Except ApiError TxnPayload
  saveReportOk : Bool
  emailOk : Bool
  errorEmailOk : Bool
  nowMonthName : String
  nowTimestamp : String
  nowFileStamp : String
  now : Int
  sinceDate : String
deriving Repr

/-- The configuration assembled by `YNABEmailer.__init__`. -/
structure Config where
  ynab_token : String
  budget_id : String
  email_host : String
  email_port : Int
  email_user : String
  email_pass : String
  to_email : String
  report_path : String
  retain_report_days : Int
  included_groups_env : String
deriving DecidableEq, Repr

/-- The `ValueError`s `__init__` can raise: a failed `int()` conversion of
an optional numeric variable, or missing required variables. -/
inductive ConfigError
  | invalidInt (var : String)
  | missingVars (vars : List String)
deriving DecidableEq, Repr

/-- English month names used by `strftime('%B %Y')`. -/
def monthNames : List String :=
  ["January", "February", "March", "April", "May", "June",
   "July", "August", "September", "October", "November", "December"]

/-- Embeds `datetime.strptime(s, '%Y-%m-%d')`: accepts exactly
`YYYY-MM-DD` with numeric fields, month 1-12 and day 1-31, returning the
year, month and day character groups plus the month number; anything else
raises (`none`). -/
def parseIsoDate? (s : String) : Option (List Char × List Char × List Char × Nat) :=
  match s.data with
  | [y1, y2, y3, y4, '-', m1, m2, '-', d1, d2] =>
      match charToDigit? y1, charToDigit? y2, charToDigit? y3, charToDigit? y4,
            charToDigit? m1, charToDigit? m2, charToDigit? d1, charToDigit? d2 with
      | some _, some _, some _, some _, some ma, some mb, some da, some db =>
          if 1 ≤ ma * 10 + mb ∧ ma * 10 + mb ≤ 12 ∧ 1 ≤ da * 10 + db ∧ da * 10 + db ≤ 31 then
            some ([y1, y2, y3, y4], [m1, m2], [d1, d2], ma * 10 + mb)
          else none
      | _, _, _, _, _, _, _, _ => none
  | _ => none

/-- Embeds lines 116-117: `strptime('%Y-%m-%d')` then `strftime('%B %Y')`. -/
def formatMonthBY (s : String) : Option String :=
  (parseIsoDate? s).bind fun (y, _, _, mo) =>
    (monthNames.get? (mo - 1)).map (fun nm => nm ++ " " ++ String.mk y)

/-- Embeds lines 220-221: `strptime('%Y-%m-%d')` then `strftime('%m/%d/%Y')`. -/
def formatTxnDate? (s : String) : Option String :=
  (parseIsoDate? s).map fun (y, m, d, _) => String.mk (m ++ '/' :: d ++ '/' :: y)

/-- Embeds the credit-card debt accumulation of `get_budget_summary`
(lines 128-134). -/
def creditDebtTotalAux (acc : Money) : List ApiAccount → Money
  | [] => acc
  | a :: rest =>
      if a.type = "creditCard" ∧ a.closed = false ∧ a.deleted = false then
        let balance := Money.ofMilli a.balance
        if balance.mills < 0 then creditDebtTotalAux (acc.add balance.abs) rest
        else creditDebtTotalAux acc rest
      else creditDebtTotalAux acc rest

/-- Credit-card debt total over the accounts payload. -/
def creditDebtTotal (accounts : List ApiAccount) : Money :=
  creditDebtTotalAux (Money.ofMilli 0) accounts

/-- The placeholder summary returned when any summary call fails
(lines 145-150). -/
def defaultSummary (nowMonthName : String) : BudgetSummary :=
  { budget_name := "Your Budget", month_name := nowMonthName,
    ready_to_assign := Money.ofMilli 0, credit_debt_total := Money.ofMilli 0 }

/-- Embeds `YNABEmailer.get_budget_summary` (lines 91-150): three GET
requests in sequence; any failure (HTTP error, missing field, unparsable
month) degrades to `defaultSummary` plus a warning log line. -/
def get_budget_summary (w : World) : BudgetSummary × List Event :=
  match w.budgetResp with
  | .error _ => (defaultSummary w.nowMonthName, [.apiCall .budget, .log .summaryFetchWarning])
  | .ok budget_name =>
      match w.monthResp with
      | .error _ =>
          (defaultSummary w.nowMonthName,
           [.apiCall .budget, .apiCall .month, .log .summaryFetchWarning])
      | .ok md =>
          match formatMonthBY md.month with
          | none =>
              (defaultSummary w.nowMonthName,
               [.apiCall .budget, .apiCall .month, .log .summaryFetchWarning])
          | some month_name =>
              match w.accountsResp with
              | .error _ =>
                  (defaultSummary w.nowMonthName,
                   [.apiCall .budget, .apiCall .month, .apiCall .accounts,
                    .log .summaryFetchWarning])
              | .ok accounts =>
                  ({ budget_name, month_name,
                     ready_to_assign := Money.ofMilli md.to_be_budgeted,
                     credit_debt_total := creditDebtTotal accounts },
                   [.apiCall .budget, .apiCall .month, .apiCall .accounts])

/-- Embeds `YNABEmailer.get_server_knowledge` (lines 152-164): read the
cursor file and parse `int(content.strip())`; a missing file or a failed
parse yields `none` (the latter with a warning). -/
def get_server_knowledge (fs : FS) : Option Int × List Event :=
  match fs.cursor with
  | none => (none, [])
  | some content =>
      match parsePyInt (trimChars content) with
      | some v => (some v, [])
      | none => (none, [.log .readKnowledgeWarning])

/-- Embeds `YNABEmailer.save_server_knowledge` (lines 166-176): write
`str(server_knowledge)` to the cursor file. -/
def save_server_knowledge (server_knowledge : Int) (fs : FS) : FS × List Event :=
  ({ fs with cursor := some (intToChars server_knowledge) },
   [.writeCursor (intToChars server_knowledge), .log .savedKnowledgeInfo])

/-- Embeds the URL construction of lines 184-194.  Python truthiness:
`if last_server_knowledge:` treats both `None` and `0` as absent. -/
def transactionsQuery (lastK : Option Int) (sinceDate : String) : Query :=
  match lastK with
  | some k => if k = 0 then .since sinceDate else .delta k
  | none => .since sinceDate

/-- Embeds the dict construction at lines 223-229.  The `or` defaults
follow Python truthiness: an empty payee string is falsy. -/
def mkTxn (t : ApiTransaction) (category_name : String) (formatted_date : String) : Txn :=
  { date := formatted_date,
    payee := match t.payee_name with
             | some p => if p = "" then "Unknown" else p
             | none => "Unknown",
    memo := t.memo.getD "",
    category := category_name,
    amount := Money.ofMilli t.amount }

/-- Embeds the filtering loop of `get_recent_transactions` (lines
207-229); `none` models the loop raising (a malformed transaction date),
which the enclosing `except` turns into an empty result. -/
def filterTxns (included : List String) : List ApiTransaction → Option (List Txn)
  | [] => some []
  | t :: ts =>
      if t.approved = true ∧ t.deleted = false then
        match t.category_name with
        | some category_name =>
            if category_name ≠ "" ∧ category_name ∈ included then
              match formatTxnDate? t.date with
              | some fd => (filterTxns included ts).map (fun rest => mkTxn t category_name fd :: rest)
              | none => none
            else filterTxns included ts
        | none => filterTxns included ts
      else filterTxns included ts

/-- Order of `sorted(..., key=lambda x: x['date'], reverse=True)`: `a` may
precede `b` when `b.date <= a.date` as Python strings. -/
def txnDateGe (a b : Txn) : Prop := strLeCh b.date.data a.date.data = true

instance : DecidableRel txnDateGe :=
  fun a b => inferInstanceAs (Decidable (strLeCh b.date.data a.date.data = true))

/-- Embeds `YNABEmailer.get_recent_transactions` (lines 178-236): choose
delta or 24-hour query, fetch, persist the new cursor, filter and sort;
any exception degrades to an empty list with a warning. -/
def get_recent_transactions (included_category_names : List String) (w : World) (fs : FS) :
    List Txn × FS × List Event :=
  let sk := get_server_knowledge fs
  let q := transactionsQuery sk.1 w.sinceDate
  match w.txnResp with
  | .error _ => ([], fs, sk.2 ++ [.apiCall (.transactions q), .log .txnFetchWarning])
  | .ok payload =>
      let sv := save_server_knowledge payload.server_knowledge fs
      match filterTxns included_category_names payload.transactions with
      | none => ([], sv.1, sk.2 ++ [.apiCall (.transactions q)] ++ sv.2 ++ [.log .txnFetchWarning])
      | some recent =>
          (List.insertionSort txnDateGe recent, sv.1, sk.2 ++ [.apiCall (.transactions q)] ++ sv.2)

/-- Embeds line 243: `set(group.strip() for group in
included_groups_env.split(','))` (as a list; only membership is used). -/
def includedGroupsOf (s : String) : List String := (splitComma s).map pyStrip

/-- Embeds the per-group body of the `get_categories` loop (lines
256-278): hidden groups, the literal "Credit Card Payments" group and
groups outside the include-list contribute nothing; hidden or deleted
categories are skipped; milliunits are converted. -/
def groupCategories (included_groups : List String) (g : ApiCategoryGroup) : List Category :=
  if g.hidden = true ∨ g.name = "Credit Card Payments" ∨ g.name ∉ included_groups then []
  else
    g.categories.filterMap fun c =>
      if c.hidden = false ∧ c.deleted = false then
        some { group := g.name, name := c.name, balance := Money.ofMilli c.balance,
               budgeted := Money.ofMilli c.budgeted, activity := Money.ofMilli c.activity }
      else none

/-- Embeds `YNABEmailer.get_categories` (lines 237-291): the missing
include-list raises before the request; an HTTP or payload error is
re-raised (propagates). -/
def get_categories (included_groups_env : String)
    (resp : Except ApiError (List ApiCategoryGroup)) :
    Except ApiError (List Category) × List Event :=
  if included_groups_env = "" then (.error .configMissing, [])
  else
    match resp with
    | .error e => (.error e, [.apiCall .categories, .log .categoriesFetchError])
    | .ok category_groups =>
        (.ok (category_groups.map (groupCategories (includedGroupsOf included_groups_env))).flatten,
         [.apiCall .categories, .log .categoriesFilteredInfo])

/-- Decimal rendering of a natural number (Python `str` / f-string
interpolation of an `int`). -/
def natToString (n : Nat) : String := String.mk (natToChars n)

/-- Embeds line 307: `sum(abs(cat['balance']) for cat in categories if
cat['balance'] < 0)`. -/
def totalNegativeBalances : List Category → Money
  | [] => Money.ofMilli 0
  | c :: rest =>
      let t := totalNegativeBalances rest
      if c.balance.mills < 0 then (c.balance.abs).add t else t

/-- Order of `sorted(categories, key=lambda x: (x['group'], x['name']))`
(line 432): lexicographic on the (group, name) pair of Python strings. -/
def catOrder (a b : Category) : Prop :=
  (strLtCh a.group.data b.group.data
    || (a.group == b.group && strLeCh a.name.data b.name.data)) = true

instance : DecidableRel catOrder :=
  fun a b => inferInstanceAs (Decidable
    ((strLtCh a.group.data b.group.data
      || (a.group == b.group && strLeCh a.name.data b.name.data)) = true))

/-- The fixed style/header prefix of the report (lines 313-350), with the
interpolated month, credit-debt and negative-balance fields. -/
def htmlHead (month_name debt_class : String) (credit_debt_total : Money)
    (negative_class : String) (total_negative_balances : Money) : String :=
  "\n        <html>"
  ++ "\n        <head>"
  ++ "\n            <style>"
  ++ "\n                body \x7b font-family: Arial, sans-serif; margin: 20px; \x7d"
  ++ "\n                .header \x7b background: linear-gradient(135deg, #667eea 0%, #764ba2 100%); "
  ++ "\n                           color: white; padding: 30px; border-radius: 10px; margin-bottom: 30px; \x7d"
  ++ "\n                .header h1 \x7b margin: 0; font-size: 28px; \x7d"
  ++ "\n                .header .month-info \x7b font-size: 18px; margin-top: 15px; \x7d"
  ++ "\n                .header .metric \x7b font-size: 18px; font-weight: bold; margin-top: 10px; \x7d"
  ++ "\n                .header .warning \x7b font-size: 14px; margin-top: 5px; font-style: italic; \x7d"
  ++ "\n                h2 \x7b color: #2c3e50; \x7d"
  ++ "\n                table \x7b border-collapse: collapse; width: 100%; margin-top: 20px; \x7d"
  ++ "\n                th \x7b background-color: #3498db; color: white; padding: 12px; text-align: left; \x7d"
  ++ "\n                td \x7b padding: 10px; border-bottom: 1px solid #ddd; \x7d"
  ++ "\n                tr:nth-child(even) \x7b background-color: #f2f2f2; \x7d"
  ++ "\n                .positive \x7b color: #27ae60; font-weight: bold; \x7d"
  ++ "\n                .negative \x7b color: #e74c3c; font-weight: bold; \x7d"
  ++ "\n                .zero \x7b color: #95a5a6; \x7d"
  ++ "\n                .summary \x7b margin-top: 30px; padding: 15px; background-color: #ecf0f1; border-radius: 5px; \x7d"
  ++ "\n                .transactions \x7b margin-top: 30px; margin-bottom: 30px; \x7d"
  ++ "\n                .transactions table \x7b margin-top: 10px; \x7d"
  ++ "\n                .transactions th \x7b background-color: #e67e22; \x7d"
  ++ "\n                .amount-positive \x7b color: #27ae60; font-weight: bold; \x7d"
  ++ "\n                .amount-negative \x7b color: #e74c3c; font-weight: bold; \x7d"
  ++ "\n            </style>"
  ++ "\n        </head>"
  ++ "\n        <body>"
  ++ "\n            <div class=\"header\">"
  ++ "\n                <h1>Rad's Budget Update</h1>"
  ++ "\n                <div class=\"month-info\">" ++ month_name ++ "</div>"
  ++ "\n                <div class=\"metric\">"
  ++ "\n                    Credit Card Debt Total: <span class=\"" ++ debt_class ++ "\">"
  ++ format_currency credit_debt_total ++ "</span>"
  ++ "\n                </div>"
  ++ "\n                <div class=\"metric\">"
  ++ "\n                    Negative Category Balances: <span class=\"" ++ negative_class ++ "\">"
  ++ format_currency total_negative_balances ++ "</span>"
  ++ "\n                </div>"
  ++ "\n        "

/-- The warning block added when negative balances exist (lines 352-357). -/
def warningBlock : String :=
  "\n                <div class=\"warning\">"
  ++ "\n                    ⚠️ This amount must be taken from other categories or credit card debt will be incurred"
  ++ "\n                </div>"
  ++ "\n            "

/-- Closing of the header div (lines 359-361). -/
def headerClose : String := "\n            </div>\n        "

/-- One transaction row of the transactions table (lines 385-393). -/
def txnRowHtml (transaction : Txn) (amount_class : String) : String :=
  "\n                        <tr>"
  ++ "\n                            <td>" ++ transaction.date ++ "</td>"
  ++ "\n                            <td>" ++ transaction.payee ++ "</td>"
  ++ "\n                            <td>" ++ transaction.category ++ "</td>"
  ++ "\n                            <td>" ++ transaction.memo ++ "</td>"
  ++ "\n                            <td class=\"" ++ amount_class ++ "\">"
  ++ format_currency transaction.amount ++ "</td>"
  ++ "\n                        </tr>"
  ++ "\n                "

/-- The transaction-row loop (lines 383-393). -/
def transactionRowsHtml : List Txn → String
  | [] => ""
  | transaction :: rest =>
      let amount_class :=
        if 0 ≤ transaction.amount.mills then "amount-positive" else "amount-negative"
      txnRowHtml transaction amount_class ++ transactionRowsHtml rest

/-- The recent-transactions section (lines 364-406): a table when there
are transactions, otherwise a fixed placeholder block. -/
def transactionsSection (recent_transactions : List Txn) : String :=
  if recent_transactions.isEmpty = false then
    "\n            <div class=\"transactions\">"
    ++ "\n                <h2>Recent Transactions</h2>"
    ++ "\n                <p>Approved transactions in tracked categories since last report ("
    ++ natToString recent_transactions.length ++ " transactions)</p>"
    ++ "\n                "
    ++ "\n                <table>"
    ++ "\n                    <thead>"
    ++ "\n                        <tr>"
    ++ "\n                            <th>Date</th>"
    ++ "\n                            <th>Payee</th>"
    ++ "\n                            <th>Category</th>"
    ++ "\n                            <th>Memo</th>"
    ++ "\n                            <th>Amount</th>"
    ++ "\n                        </tr>"
    ++ "\n                    </thead>"
    ++ "\n                    <tbody>"
    ++ "\n            "
    ++ transactionRowsHtml recent_transactions
    ++ "\n                    </tbody>"
    ++ "\n                </table>"
    ++ "\n            </div>"
    ++ "\n            "
  else
    "\n            <div class=\"transactions\">"
    ++ "\n                <h2>Recent Transactions</h2>"
    ++ "\n                <p>No new approved transactions in tracked categories since last report.</p>"
    ++ "\n            </div>"
    ++ "\n            "

/-- The category-balances header (lines 409-424), including the
"Generated on" line that interpolates `datetime.now()`. -/
def categoryHeaderHtml (budget_name nowTimestamp : String) : String :=
  "\n            <h2>Category Balances - " ++ budget_name ++ "</h2>"
  ++ "\n            <p>Generated on: " ++ nowTimestamp ++ "</p>"
  ++ "\n            "
  ++ "\n            <table>"
  ++ "\n                <thead>"
  ++ "\n                    <tr>"
  ++ "\n                        <th>Category Group</th>"
  ++ "\n                        <th>Category</th>"
  ++ "\n                        <th>Available Balance</th>"
  ++ "\n                        <th>Budgeted</th>"
  ++ "\n                        <th>Activity</th>"
  ++ "\n                    </tr>"
  ++ "\n                </thead>"
  ++ "\n                <tbody>"
  ++ "\n        "

/-- One category row (lines 449-457). -/
def categoryRowHtml (group_cell : String) (category : Category)
    (balance_class : String) : String :=
  "\n                    <tr>"
  ++ "\n                        <td><strong>" ++ group_cell ++ "</strong></td>"
  ++ "\n                        <td>" ++ category.name ++ "</td>"
  ++ "\n                        <td class=\"" ++ balance_class ++ "\">"
  ++ format_currency category.balance ++ "</td>"
  ++ "\n                        <td>" ++ format_currency category.budgeted ++ "</td>"
  ++ "\n                        <td>" ++ format_currency category.activity ++ "</td>"
  ++ "\n                    </tr>"
  ++ "\n            "

/-- The category-row loop (lines 427-457): renders each sorted category,
showing the group label only when it differs from the previous row's, and
accumulates the available-balance total and the positive/negative counts. -/
def categoryRowsAux : Option String → List Category → String × Money × Nat × Nat
  | _, [] => ("", Money.ofMilli 0, 0, 0)
  | current_group, category :: rest =>
      let balance := category.balance
      let cls : String × Nat × Nat :=
        if 0 < balance.mills then ("positive", 1, 0)
        else if balance.mills < 0 then ("negative", 0, 1)
        else ("zero", 0, 0)
      let group_cell := if some category.group ≠ current_group then category.group else ""
      let row := categoryRowHtml group_cell category cls.1
      let restOut := categoryRowsAux (some category.group) rest
      (row ++ restOut.1, balance.add restOut.2.1, cls.2.1 + restOut.2.2.1, cls.2.2 + restOut.2.2.2)

/-- The closing summary block (lines 459-482). -/
def summaryHtml (rta_class : String) (ready_to_assign : Money)
    (total_available : Money) (positive_balances negative_balances total_categories : Nat) :
    String :=
  "\n                </tbody>"
  ++ "\n            </table>"
  ++ "\n            "
  ++ "\n            <div class=\"summary\">"
  ++ "\n                <h3>Summary</h3>"
  ++ "\n                <p><strong>Ready to Assign:</strong> "
  ++ "\n                   <span class=\"" ++ rta_class ++ "\">"
  ++ format_currency ready_to_assign ++ "</span>"
  ++ "\n                </p>"
  ++ "\n                <p><strong>Total Available Balance:</strong> "
  ++ "\n                   <span class=\""
  ++ (if 0 ≤ total_available.mills then "positive" else "negative") ++ "\">"
  ++ "\n                   " ++ format_currency total_available
  ++ "\n                   </span>"
  ++ "\n                </p>"
  ++ "\n                <p><strong>Categories with Positive Balances:</strong> "
  ++ natToString positive_balances ++ "</p>"
  ++ "\n                <p><strong>Categories with Negative Balances:</strong> "
  ++ natToString negative_balances ++ "</p>"
  ++ "\n                <p><strong>Total Categories:</strong> "
  ++ natToString total_categories ++ "</p>"
  ++ "\n            </div>"
  ++ "\n        </body>"
  ++ "\n        </html>"
  ++ "\n        "

/-- Embeds `YNABEmailer.create_html_table` (lines 299-484).  Besides its
three data arguments the function reads `datetime.now()` (line 411), which
is passed here explicitly as the pre-rendered `nowTimestamp`. -/
def create_html_table (categories : List Category) (budget_summary : BudgetSummary)
    (recent_transactions : List Txn) (nowTimestamp : String) : String :=
  let total_negative_balances := totalNegativeBalances categories
  let debt_class :=
    if 0 < budget_summary.credit_debt_total.mills then "negative" else "positive"
  let negative_class :=
    if 0 < total_negative_balances.mills then "negative" else "positive"
  let sortedCats := List.insertionSort catOrder categories
  let rows := categoryRowsAux none sortedCats
  let rta_class :=
    if 0 ≤ budget_summary.ready_to_assign.mills then "positive" else "negative"
  htmlHead budget_summary.month_name debt_class budget_summary.credit_debt_total
      negative_class total_negative_balances
  ++ (if 0 < total_negative_balances.mills then warningBlock else "")
  ++ headerClose
  ++ transactionsSection recent_transactions
  ++ categoryHeaderHtml budget_summary.budget_name nowTimestamp
  ++ rows.1
  ++ summaryHtml rta_class budget_summary.ready_to_assign rows.2.1
      rows.2.2.1 rows.2.2.2 categories.length

/-- Embeds `YNABEmailer.save_html_report` (lines 486-505): write the
report as `ynab_report_<timestamp>.html` in the report directory (the
directory itself is `cfg.report_path`, modelled as the one report
directory of `FS`); a write failure logs an error and raises. -/
def save_html_report (html_content : String) (w : World) (fs : FS) :
    Except Unit FS × List Event :=
  let filename := "ynab_report_" ++ w.nowFileStamp ++ ".html"
  if w.saveReportOk then
    (.ok { fs with reports := fs.reports ++
            [{ name := filename, mtime := w.now, content := html_content, removable := true }] },
     [.writeReport filename])
  else (.error (), [.log .saveReportError])

/-- Embeds line 520: `filename.startswith('ynab_report_') and
filename.endswith('.html')`. -/
def isReportFile (filename : String) : Bool :=
  "ynab_report_".data.isPrefixOf filename.data && ".html".data.isSuffixOf filename.data

/-- The per-file loop of `cleanup_old_reports` (lines 519-533): delete
matching files older than the cutoff; a failing `os.remove` logs an error
and the loop continues with the remaining files. -/
def sweep (cutoff : Int) : List FileEntry → List FileEntry × List Event
  | [] => ([], [])
  | f :: rest =>
      if isReportFile f.name = true ∧ f.mtime < cutoff then
        if f.removable then
          let r := sweep cutoff rest
          (r.1, .deleteFile f.name :: r.2)
        else
          let r := sweep cutoff rest
          (f :: r.1, .log (.deleteError f.name) :: r.2)
      else
        let r := sweep cutoff rest
        (f :: r.1, r.2)

/-- Embeds `YNABEmailer.cleanup_old_reports` (lines 507-541): skip with a
warning when the report directory is missing, otherwise sweep files whose
modification time is before `now - retain_report_days` days
(86400 seconds each). -/
def cleanup_old_reports (cfg : Config) (w : World) (fs : FS) : FS × List Event :=
  if fs.reportDirExists = false then (fs, [.log .reportPathWarning])
  else
    let cutoff := w.now - cfg.retain_report_days * 86400
    let r := sweep cutoff fs.reports
    ({ fs with reports := r.1 }, r.2)

/-- Embeds `YNABEmailer.send_email` (lines 579-639): a send failure is
logged and re-raised. -/
def send_email (w : World) : Except Unit Unit × List Event :=
  if w.emailOk then (.ok (), [.sendEmail]) else (.error (), [.log .emailError])

/-- The `except` block of `run` (lines 679-695): log the error, attempt a
best-effort failure-notice email (its own failure is swallowed), then
`sys.exit(1)`. -/
def runFail (w : World) (fs : FS) (evts : List Event) : Nat × FS × List Event :=
  (1, fs, evts ++ [.log .runError] ++ if w.errorEmailOk then [.sendErrorEmail] else [])

/-- Embeds `YNABEmailer.run` (lines 641-695), returning the process exit
code (0 on normal return, 1 on `sys.exit(1)`), the final filesystem state
and the trace of observable actions. -/
def run (cfg : Config) (w : World) (fs : FS) : Nat × FS × List Event :=
  let bs := get_budget_summary w
  let cats := get_categories cfg.included_groups_env w.categoriesResp
  match cats.1 with
  | .error _ => runFail w fs (bs.2 ++ cats.2)
  | .ok categories =>
      if categories.isEmpty = true then
        (0, fs, bs.2 ++ cats.2 ++ [.log .noCategoriesWarning])
      else
        let category_names := categories.map (·.name)
        let tr := get_recent_transactions category_names w fs
        let html_content := create_html_table categories bs.1 tr.1 w.nowTimestamp
        match save_html_report html_content w tr.2.1 with
        | (.error _, ev4) => runFail w tr.2.1 (bs.2 ++ cats.2 ++ tr.2.2 ++ ev4)
        | (.ok fs2, ev4) =>
            let cl := cleanup_old_reports cfg w fs2
            match send_email w with
            | (.error _, ev6) =>
                runFail w cl.1 (bs.2 ++ cats.2 ++ tr.2.2 ++ ev4 ++ cl.2 ++ ev6)
            | (.ok _, ev6) =>
                (0, cl.1,
                 bs.2 ++ cats.2 ++ tr.2.2 ++ ev4 ++ cl.2 ++ ev6 ++ [.log .runCompletedInfo])

/-- The required environment variables (lines 77-80). -/
def requiredVars : List String :=
  ["YNAB_API_TOKEN", "BUDGET_ID", "EMAIL_USER", "EMAIL_PASS", "TO_EMAIL", "INCLUDED_GROUPS"]

/-- The process environment: an association list of variable names to
values. -/
abbrev Env := List (String × String)

/-- Embeds `os.getenv`. -/
def getenv (env : Env) (key : String) : Option String :=
  (env.find? (fun p => p.1 == key)).map (·.2)

/-- Python falsiness of an optional environment value
(`not os.getenv(var)`, line 81): absent or empty. -/
def falsyEnv : Option String → Bool
  | none => true
  | some s => s = ""

/-- Embeds `YNABEmailer.__init__` (lines 59-89): read the configuration,
convert the numeric options with `int()` (each may raise `ValueError`),
then raise a `ValueError` naming the missing required variables, if any.
No network request is made here. -/
def initEmailer (env : Env) : Except ConfigError Config :=
  match parsePyInt (trimChars ((getenv env "EMAIL_PORT").getD "587").data) with
  | none => .error (.invalidInt "EMAIL_PORT")
  | some email_port =>
      match parsePyInt (trimChars ((getenv env "RETAIN_REPORT_DAYS").getD "30").data) with
      | none => .error (.invalidInt "RETAIN_REPORT_DAYS")
      | some retain_report_days =>
          let missing_vars := requiredVars.filter (fun v => falsyEnv (getenv env v))
          if missing_vars.isEmpty = false then .error (.missingVars missing_vars)
          else
            .ok { ynab_token := (getenv env "YNAB_API_TOKEN").getD "",
                  budget_id := (getenv env "BUDGET_ID").getD "",
                  email_host := (getenv env "EMAIL_HOST").getD "smtp.gmail.com",
                  email_port,
                  email_user := (getenv env "EMAIL_USER").getD "",
                  email_pass := (getenv env "EMAIL_PASS").getD "",
                  to_email := (getenv env "TO_EMAIL").getD "",
                  report_path := (getenv env "REPORT_PATH").getD "",
                  retain_report_days,
                  included_groups_env := (getenv env "INCLUDED_GROUPS").getD "" }

/-- Embeds `main` (lines 698-715) in default mode (no `--test-smtp`
flag): a constructor failure is caught and the process exits 1 having
performed no observable action. -/
def mainRun (env : Env) (w : World) (fs : FS) : Nat × FS × List Event :=
  match initEmailer env with
  | .error _ => (1, fs, [])
  | .ok cfg => run cfg w fs

theorem charToDigit?_digitChar {d : Nat} (h : d < 10) :
    charToDigit? (Nat.digitChar d) = some d := by
  interval_cases d <;> decide

theorem natToCharsAux_digits : ∀ fuel n, ∀ c ∈ natToCharsAux fuel n,
    ∃ d, d < 10 ∧ c = Nat.digitChar d := by
  intro fuel
  induction fuel with
  | zero => intro n c hc; simp [natToCharsAux] at hc
  | succ fuel ih =>
      intro n c hc
      match n with
      | 0 => simp [natToCharsAux] at hc
      | m + 1 =>
          simp only [natToCharsAux] at hc
          rcases List.mem_append.mp hc with h | h
          · exact ih _ _ h
          · simp only [List.mem_singleton] at h
            exact ⟨(m + 1) % 10, Nat.mod_lt _ (by norm_num), h⟩

theorem parseAux_append : ∀ l₁ l₂ a, parseAux a (l₁ ++ l₂)
    = match parseAux a l₁ with
      | some b => parseAux b l₂
      | none => none := by
  intro l₁
  induction l₁ with
  | nil => intro l₂ a; rfl
  | cons c cs ih =>
      intro l₂ a
      simp only [List.cons_append, parseAux]
      cases h : charToDigit? c with
      | some d => simp only [h]; exact ih l₂ (a * 10 + d)
      | none => simp only [h]

theorem parseAux_natToCharsAux : ∀ fuel n a, n ≤ fuel →
    parseAux a (natToCharsAux fuel n)
      = some (a * 10 ^ (natToCharsAux fuel n).length + n) := by
  intro fuel
  induction fuel with
  | zero =>
      intro n a h
      have hn : n = 0 := Nat.le_zero.mp h
      subst hn
      simp [natToCharsAux, parseAux]
  | succ fuel ih =>
      intro n a h
      match n with
      | 0 => simp [natToCharsAux, parseAux]
      | m + 1 =>
          have hdiv : (m + 1) / 10 ≤ fuel := by
            have h1 : (m + 1) / 10 < m + 1 := Nat.div_lt_self (Nat.succ_pos m) (by norm_num)
            omega
          have hmod : (m + 1) % 10 < 10 := Nat.mod_lt _ (by norm_num)
          simp only [natToCharsAux]
          rw [parseAux_append, ih _ a hdiv]
          simp only [parseAux, charToDigit?_digitChar hmod, List.length_append,
            List.length_cons, List.length_nil]
          simp only [Option.some.injEq]
          set q := (m + 1) / 10 with hq_def
          set r := (m + 1) % 10 with hr_def
          have hq : 10 * q + r = m + 1 := Nat.div_add_mod (m + 1) 10
          rw [← hq, pow_succ]
          ring

theorem natToChars_ne_nil (n : Nat) : natToChars n ≠ [] := by
  rw [natToChars]
  by_cases h : n = 0
  · simp [h]
  · rw [if_neg h]
    obtain ⟨m, rfl⟩ := Nat.exists_eq_succ_of_ne_zero h
    simp [natToCharsAux]

theorem natToChars_digits : ∀ n, ∀ c ∈ natToChars n, ∃ d, d < 10 ∧ c = Nat.digitChar d := by
  intro n c hc
  rw [natToChars] at hc
  by_cases h : n = 0
  · rw [if_pos h] at hc
    simp only [List.mem_singleton] at hc
    exact ⟨0, by norm_num, hc⟩
  · rw [if_neg h] at hc
    exact natToCharsAux_digits n n c hc

theorem parseNatDigits_eq {l : List Char} (h : l ≠ []) : parseNatDigits l = parseAux 0 l := by
  cases l with
  | nil => exact absurd rfl h
  | cons c cs => rfl

theorem parseNatDigits_natToChars (n : Nat) : parseNatDigits (natToChars n) = some n := by
  rw [parseNatDigits_eq (natToChars_ne_nil n)]
  by_cases h : n = 0
  · subst h; decide
  · rw [natToChars, if_neg h]
    rw [parseAux_natToCharsAux n n 0 (Nat.le_refl n)]
    simp

theorem digitChar_facts {d : Nat} (h : d < 10) :
    isPySpace (Nat.digitChar d) = false ∧ Nat.digitChar d ≠ '-' ∧ Nat.digitChar d ≠ '+' := by
  interval_cases d <;> exact ⟨by decide, by decide, by decide⟩

theorem intToChars_not_space (v : Int) : ∀ c ∈ intToChars v, isPySpace c = false := by
  intro c hc
  rw [intToChars] at hc
  have hdig : ∀ c ∈ natToChars v.natAbs, isPySpace c = false := by
    intro c' hc'
    obtain ⟨d, hd, rfl⟩ := natToChars_digits _ c' hc'
    exact (digitChar_facts hd).1
  by_cases hv : v < 0
  · rw [if_pos hv] at hc
    rcases List.mem_cons.mp hc with rfl | hc
    · decide
    · exact hdig c hc
  · rw [if_neg hv] at hc
    exact hdig c hc

theorem dropWhile_eq_self_of_forall {p : Char → Bool} :
    ∀ l : List Char, (∀ c ∈ l, p c = false) → l.dropWhile p = l := by
  intro l h
  cases l with
  | nil => rfl
  | cons a t => simp [List.dropWhile_cons, h a (List.mem_cons_self a t)]

theorem trimChars_eq_self {l : List Char} (h : ∀ c ∈ l, isPySpace c = false) :
    trimChars l = l := by
  unfold trimChars
  rw [dropWhile_eq_self_of_forall l h,
    dropWhile_eq_self_of_forall l.reverse (fun c hc => h c (List.mem_reverse.mp hc)),
    List.reverse_reverse]

theorem parsePyInt_cons_minus (rest : List Char) :
    parsePyInt ('-' :: rest) = (parseNatDigits rest).map (fun n => -(Int.ofNat n)) := rfl

theorem parsePyInt_cons_of_ne {c : Char} (rest : List Char)
    (h1 : c ≠ '-') (h2 : c ≠ '+') :
    parsePyInt (c :: rest) = (parseNatDigits (c :: rest)).map (fun n => Int.ofNat n) := by
  simp only [parsePyInt, if_neg h1, if_neg h2]

theorem parsePyInt_intToChars (v : Int) : parsePyInt (intToChars v) = some v := by
  by_cases hv : v < 0
  · rw [intToChars, if_pos hv, parsePyInt_cons_minus, parseNatDigits_natToChars]
    simp only [Option.map_some', Option.some.injEq]
    show -(v.natAbs : Int) = v
    rw [Int.ofNat_natAbs_of_nonpos (le_of_lt hv), neg_neg]
  · rw [intToChars, if_neg hv]
    obtain ⟨c, cs, hcons⟩ := List.exists_cons_of_ne_nil (natToChars_ne_nil v.natAbs)
    obtain ⟨d, hd, hcd⟩ := natToChars_digits v.natAbs c (by rw [hcons]; exact List.mem_cons_self c cs)
    have hfacts := digitChar_facts hd
    rw [hcons, parsePyInt_cons_of_ne cs (hcd ▸ hfacts.2.1) (hcd ▸ hfacts.2.2), ← hcons,
      parseNatDigits_natToChars]
    simp only [Option.map_some', Option.some.injEq]
    show (v.natAbs : Int) = v
    rw [Int.natAbs_of_nonneg (not_lt.mp hv)]

theorem strLeCh_total : ∀ l₁ l₂ : List Char, strLeCh l₁ l₂ = true ∨ strLeCh l₂ l₁ = true := by
  intro l₁
  induction l₁ with
  | nil => intro l₂; left; rfl
  | cons a as ih =>
      intro l₂
      cases l₂ with
      | nil => right; rfl
      | cons b bs =>
          simp only [strLeCh, Bool.or_eq_true, Bool.and_eq_true, decide_eq_true_eq, beq_iff_eq]
          rcases Nat.lt_trichotomy a.toNat b.toNat with h | h | h
          · exact Or.inl (Or.inl h)
          · rcases ih bs with h2 | h2
            · exact Or.inl (Or.inr ⟨h, h2⟩)
            · exact Or.inr (Or.inr ⟨h.symm, h2⟩)
          · exact Or.inr (Or.inl h)

theorem strLeCh_trans : ∀ l₁ l₂ l₃ : List Char,
    strLeCh l₁ l₂ = true → strLeCh l₂ l₃ = true → strLeCh l₁ l₃ = true := by
  intro l₁
  induction l₁ with
  | nil => intro l₂ l₃ _ _; rfl
  | cons a as ih =>
      intro l₂ l₃ h12 h23
      cases l₂ with
      | nil => simp [strLeCh] at h12
      | cons b bs =>
          cases l₃ with
          | nil => simp [strLeCh] at h23
          | cons c cs =>
              simp only [strLeCh, Bool.or_eq_true, Bool.and_eq_true, decide_eq_true_eq,
                beq_iff_eq] at h12 h23 ⊢
              rcases h12 with h12 | ⟨hab, h12⟩
              · rcases h23 with h23 | ⟨hbc, h23⟩
                · exact Or.inl (Nat.lt_trans h12 h23)
                · exact Or.inl (by omega)
              · rcases h23 with h23 | ⟨hbc, h23⟩
                · exact Or.inl (by omega)
                · exact Or.inr ⟨hab.trans hbc, ih bs cs h12 h23⟩

instance : IsTotal Txn txnDateGe :=
  ⟨fun a b => strLeCh_total b.date.data a.date.data⟩

instance : IsTrans Txn txnDateGe :=
  ⟨fun a b c hab hbc => strLeCh_trans c.date.data b.date.data a.date.data hbc hab⟩

/-- Classifier: the read-only events the summary and categories stages can
emit (non-transaction API calls and log lines). -/
def Event.isPassive : Event → Bool
  | .apiCall .budget => true
  | .apiCall .month => true
  | .apiCall .accounts => true
  | .apiCall .categories => true
  | .log _ => true
  | _ => false

/-- Classifier: cursor-file writes. -/
def Event.isCursorWrite : Event → Bool
  | .writeCursor _ => true
  | _ => false

theorem passive_facts {e : Event} (h : e.isPassive = true) :
    e.isCursorWrite = false ∧ e ≠ .sendEmail ∧ e ≠ .sendErrorEmail ∧
    (∀ n, e ≠ .writeReport n) ∧ (∀ q, e ≠ .apiCall (.transactions q)) := by
  cases e with
  | apiCall k => cases k <;> simp_all [Event.isPassive, Event.isCursorWrite]
  | writeCursor c => simp [Event.isPassive] at h
  | writeReport n => simp [Event.isPassive] at h
  | deleteFile n => simp [Event.isPassive] at h
  | sendEmail => simp [Event.isPassive] at h
  | sendErrorEmail => simp [Event.isPassive] at h
  | log m => simp [Event.isCursorWrite]

theorem get_budget_summary_events (w : World) :
    ∀ e ∈ (get_budget_summary w).2, e.isPassive = true := by
  intro e he
  unfold get_budget_summary at he
  cases hb : w.budgetResp with
  | error err =>
      simp only [hb, List.mem_cons, List.not_mem_nil, or_false] at he
      rcases he with rfl | rfl <;> rfl
  | ok name =>
      cases hm : w.monthResp with
      | error err =>
          simp only [hb, hm, List.mem_cons, List.not_mem_nil, or_false] at he
          rcases he with rfl | rfl | rfl <;> rfl
      | ok md =>
          cases hf : formatMonthBY md.month with
          | none =>
              simp only [hb, hm, hf, List.mem_cons, List.not_mem_nil, or_false] at he
              rcases he with rfl | rfl | rfl <;> rfl
          | some mn =>
              cases ha : w.accountsResp with
              | error err =>
                  simp only [hb, hm, hf, ha, List.mem_cons, List.not_mem_nil, or_false] at he
                  rcases he with rfl | rfl | rfl | rfl <;> rfl
              | ok accounts =>
                  simp only [hb, hm, hf, ha, List.mem_cons, List.not_mem_nil, or_false] at he
                  rcases he with rfl | rfl | rfl <;> rfl

theorem get_categories_events (env : String) (resp : Except ApiError (List ApiCategoryGroup)) :
    ∀ e ∈ (get_categories env resp).2, e.isPassive = true := by
  intro e he
  unfold get_categories at he
  by_cases h : env = ""
  · rw [if_pos h] at he
    simp at he
  · rw [if_neg h] at he
    cases resp with
    | error err =>
        simp only [List.mem_cons, List.not_mem_nil, or_false] at he
        rcases he with rfl | rfl <;> rfl
    | ok groups =>
        simp only [List.mem_cons, List.not_mem_nil, or_false] at he
        rcases he with rfl | rfl <;> rfl

theorem get_server_knowledge_events (fs : FS) :
    ∀ e ∈ (get_server_knowledge fs).2, e.isPassive = true := by
  intro e he
  unfold get_server_knowledge at he
  cases hc : fs.cursor with
  | none => simp only [hc, List.not_mem_nil] at he
  | some content =>
      cases hp : parsePyInt (trimChars content) with
      | some v => simp only [hc, hp, List.not_mem_nil] at he
      | none =>
          simp only [hc, hp, List.mem_cons, List.not_mem_nil, or_false] at he
          subst he
          rfl

theorem mem_sweep_fst (cutoff : Int) : ∀ (l : List FileEntry) (f : FileEntry),
    f ∈ (sweep cutoff l).1 ↔
      f ∈ l ∧ ¬(isReportFile f.name = true ∧ f.mtime < cutoff ∧ f.removable = true) := by
  intro l
  induction l with
  | nil => intro f; simp [sweep]
  | cons g rest ih =>
      intro f
      by_cases h1 : isReportFile g.name = true ∧ g.mtime < cutoff
      · by_cases h2 : g.removable = true
        · simp only [sweep, if_pos h1, if_pos h2]
          rw [ih f]
          simp only [List.mem_cons]
          constructor
          · rintro ⟨hf, hnp⟩
            exact ⟨Or.inr hf, hnp⟩
          · rintro ⟨hor, hnp⟩
            rcases hor with rfl | hf
            · exact absurd ⟨h1.1, h1.2, h2⟩ hnp
            · exact ⟨hf, hnp⟩
        · simp only [sweep, if_pos h1, if_neg h2, List.mem_cons, ih f]
          constructor
          · rintro (rfl | ⟨hf, hnp⟩)
            · exact ⟨Or.inl rfl, fun hp => h2 hp.2.2⟩
            · exact ⟨Or.inr hf, hnp⟩
          · rintro ⟨hor, hnp⟩
            rcases hor with rfl | hf
            · exact Or.inl rfl
            · exact Or.inr ⟨hf, hnp⟩
      · simp only [sweep, if_neg h1, List.mem_cons, ih f]
        constructor
        · rintro (rfl | ⟨hf, hnp⟩)
          · exact ⟨Or.inl rfl, fun hp => h1 ⟨hp.1, hp.2.1⟩⟩
          · exact ⟨Or.inr hf, hnp⟩
        · rintro ⟨hor, hnp⟩
          rcases hor with rfl | hf
          · exact Or.inl rfl
          · exact Or.inr ⟨hf, hnp⟩

theorem sweep_events_shape (cutoff : Int) : ∀ l, ∀ e ∈ (sweep cutoff l).2,
    (∃ n, e = Event.deleteFile n) ∨ (∃ n, e = Event.log (.deleteError n)) := by
  intro l
  induction l with
  | nil => intro e he; simp [sweep] at he
  | cons g rest ih =>
      intro e he
      by_cases h1 : isReportFile g.name = true ∧ g.mtime < cutoff
      · by_cases h2 : g.removable = true
        · simp only [sweep, if_pos h1, if_pos h2, List.mem_cons] at he
          rcases he with rfl | he
          · exact Or.inl ⟨g.name, rfl⟩
          · exact ih e he
        · simp only [sweep, if_pos h1, if_neg h2, List.mem_cons] at he
          rcases he with rfl | he
          · exact Or.inr ⟨g.name, rfl⟩
          · exact ih e he
      · simp only [sweep, if_neg h1] at he
        exact ih e he

theorem sweep_logs_failure (cutoff : Int) : ∀ l, ∀ f ∈ l,
    isReportFile f.name = true → f.mtime < cutoff → f.removable = false →
    Event.log (.deleteError f.name) ∈ (sweep cutoff l).2 := by
  intro l
  induction l with
  | nil => intro f hf; simp at hf
  | cons g rest ih =>
      intro f hf h1 h2 h3
      rcases List.mem_cons.mp hf with rfl | hf
      · simp only [sweep, if_pos (⟨h1, h2⟩ : _ ∧ _), if_neg (by simp [h3] : ¬f.removable = true)]
        exact List.mem_cons_self _ _
      · by_cases hc : isReportFile g.name = true ∧ g.mtime < cutoff
        · by_cases hr : g.removable = true
          · simp only [sweep, if_pos hc, if_pos hr]
            exact List.mem_cons_of_mem _ (ih f hf h1 h2 h3)
          · simp only [sweep, if_pos hc, if_neg hr]
            exact List.mem_cons_of_mem _ (ih f hf h1 h2 h3)
        · simp only [sweep, if_neg hc]
          exact ih f hf h1 h2 h3

theorem sweep_deletes (cutoff : Int) : ∀ l, ∀ f ∈ l,
    isReportFile f.name = true → f.mtime < cutoff → f.removable = true →
    Event.deleteFile f.name ∈ (sweep cutoff l).2 := by
  intro l
  induction l with
  | nil => intro f hf; simp at hf
  | cons g rest ih =>
      intro f hf h1 h2 h3
      rcases List.mem_cons.mp hf with rfl | hf
      · simp only [sweep, if_pos (⟨h1, h2⟩ : _ ∧ _), if_pos h3]
        exact List.mem_cons_self _ _
      · by_cases hc : isReportFile g.name = true ∧ g.mtime < cutoff
        · by_cases hr : g.removable = true
          · simp only [sweep, if_pos hc, if_pos hr]
            exact List.mem_cons_of_mem _ (ih f hf h1 h2 h3)
          · simp only [sweep, if_pos hc, if_neg hr]
            exact List.mem_cons_of_mem _ (ih f hf h1 h2 h3)
        · simp only [sweep, if_neg hc]
          exact ih f hf h1 h2 h3

theorem cleanup_cursor (cfg : Config) (w : World) (fs : FS) :
    (cleanup_old_reports cfg w fs).1.cursor = fs.cursor := by
  unfold cleanup_old_reports
  by_cases h : fs.reportDirExists = false
  · rw [if_pos h]
  · rw [if_neg h]

theorem cleanup_events_not_cursor (cfg : Config) (w : World) (fs : FS) :
    ∀ e ∈ (cleanup_old_reports cfg w fs).2, e.isCursorWrite = false ∧ e ≠ .sendEmail := by
  intro e he
  by_cases h : fs.reportDirExists = false
  · simp only [cleanup_old_reports, if_pos h, List.mem_singleton] at he
    subst he
    exact ⟨rfl, by simp⟩
  · simp only [cleanup_old_reports, if_neg h] at he
    rcases sweep_events_shape _ _ e he with ⟨n, rfl⟩ | ⟨n, rfl⟩ <;> exact ⟨rfl, by simp⟩

theorem save_html_report_events (html : String) (w : World) (fs : FS) :
    ∀ e ∈ (save_html_report html w fs).2, e.isCursorWrite = false ∧ e ≠ .sendEmail := by
  intro e he
  by_cases h : w.saveReportOk = true
  · simp only [save_html_report, if_pos h, List.mem_singleton] at he
    subst he
    exact ⟨rfl, by simp⟩
  · simp only [save_html_report, if_neg h, List.mem_singleton] at he
    subst he
    exact ⟨rfl, by simp⟩

theorem save_html_report_ok_cursor (html : String) (w : World) (fs fs2 : FS)
    (ev : List Event) (h : save_html_report html w fs = (.ok fs2, ev)) :
    fs2.cursor = fs.cursor := by
  by_cases hw : w.saveReportOk = true
  · simp only [save_html_report, if_pos hw, Prod.mk.injEq, Except.ok.injEq] at h
    rw [← h.1]
  · simp only [save_html_report, if_neg hw, Prod.mk.injEq] at h
    exact absurd h.1 (by simp)

theorem send_email_events (w : World) : ∀ e ∈ (send_email w).2,
    e = Event.sendEmail ∨ e = Event.log .emailError := by
  intro e he
  by_cases h : w.emailOk = true
  · simp only [send_email, if_pos h, List.mem_singleton] at he
    exact Or.inl he
  · simp only [send_email, if_neg h, List.mem_singleton] at he
    exact Or.inr he

theorem runFail_events (w : World) (fs : FS) (evts : List Event) :
    ∀ e ∈ (runFail w fs evts).2.2,
      e ∈ evts ∨ e = Event.log .runError ∨ e = Event.sendErrorEmail := by
  intro e he
  unfold runFail at he
  simp only [List.mem_append, List.mem_singleton] at he
  rcases he with (he | rfl) | he
  · exact Or.inl he
  · exact Or.inr (Or.inl rfl)
  · by_cases h : w.errorEmailOk = true
    · rw [if_pos h] at he
      simp only [List.mem_singleton] at he
      exact Or.inr (Or.inr he)
    · rw [if_neg h] at he
      simp at he

theorem get_recent_transactions_ok_shape (names : List String) (w : World) (fs : FS)
    (payload : TxnPayload) (h : w.txnResp = .ok payload) :
    ∃ tail : List Event,
      (get_recent_transactions names w fs).2.2
        = (get_server_knowledge fs).2
          ++ Event.apiCall (.transactions (transactionsQuery (get_server_knowledge fs).1 w.sinceDate))
            :: Event.writeCursor (intToChars payload.server_knowledge)
            :: Event.log .savedKnowledgeInfo :: tail ∧
      (∀ e ∈ tail, e.isPassive = true) ∧
      (get_recent_transactions names w fs).2.1.cursor
        = some (intToChars payload.server_knowledge) := by
  cases hf : filterTxns names payload.transactions with
  | none =>
      refine ⟨[Event.log .txnFetchWarning], ?_, ?_, ?_⟩
      · simp [get_recent_transactions, h, hf, save_server_knowledge]
      · intro e he
        simp only [List.mem_singleton] at he
        subst he
        rfl
      · simp [get_recent_transactions, h, hf, save_server_knowledge]
  | some recent =>
      refine ⟨[], ?_, ?_, ?_⟩
      · simp [get_recent_transactions, h, hf, save_server_knowledge]
      · intro e he
        simp at he
      · simp [get_recent_transactions, h, hf, save_server_knowledge]

theorem mem_filterTxns (included : List String) :
    ∀ (ts : List ApiTransaction) (l : List Txn), filterTxns included ts = some l →
      ∀ t ∈ l, ∃ raw ∈ ts, raw.approved = true ∧ raw.deleted = false ∧
        raw.category_name = some t.category ∧ t.category ∈ included ∧
        ∃ fd, formatTxnDate? raw.date = some fd ∧ t = mkTxn raw t.category fd := by
  intro ts
  induction ts with
  | nil =>
      intro l hl t ht
      simp only [filterTxns, Option.some.injEq] at hl
      subst hl
      simp at ht
  | cons r rs ih =>
      intro l hl t ht
      have lift : (filterTxns included rs = some l) →
          ∃ raw ∈ r :: rs, raw.approved = true ∧ raw.deleted = false ∧
            raw.category_name = some t.category ∧ t.category ∈ included ∧
            ∃ fd, formatTxnDate? raw.date = some fd ∧ t = mkTxn raw t.category fd := by
        intro hrec
        obtain ⟨raw, hraw, hrest⟩ := ih l hrec t ht
        exact ⟨raw, List.mem_cons_of_mem _ hraw, hrest⟩
      by_cases ha : r.approved = true ∧ r.deleted = false
      · simp only [filterTxns, if_pos ha] at hl
        cases hcn : r.category_name with
        | none =>
            simp only [hcn] at hl
            exact lift hl
        | some cn =>
            simp only [hcn] at hl
            by_cases hin : cn ≠ "" ∧ cn ∈ included
            · rw [if_pos hin] at hl
              cases hfd : formatTxnDate? r.date with
              | none =>
                  rw [hfd] at hl
                  cases hrest : filterTxns included rs with
                  | none => rw [hrest] at hl; simp at hl
                  | some lrest => rw [hrest] at hl; simp at hl
              | some fd =>
                  rw [hfd] at hl
                  cases hrest : filterTxns included rs with
                  | none => rw [hrest] at hl; simp at hl
                  | some lrest =>
                      rw [hrest] at hl
                      simp only [Option.map_some', Option.some.injEq] at hl
                      subst hl
                      rcases List.mem_cons.mp ht with rfl | ht2
                      · exact ⟨r, List.mem_cons_self _ _, ha.1, ha.2, hcn, hin.2, fd, hfd, rfl⟩
                      · obtain ⟨raw, hraw, hrest2⟩ := ih lrest hrest _ ht2
                        exact ⟨raw, List.mem_cons_of_mem _ hraw, hrest2⟩
            · rw [if_neg hin] at hl
              exact lift hl
      · simp only [filterTxns, if_neg ha] at hl
        exact lift hl

theorem run_after_transactions (cfg : Config) (w : World) (fs : FS) (cats : List Category)
    (hcat : (get_categories cfg.included_groups_env w.categoriesResp).1 = .ok cats)
    (hne : cats ≠ []) :
    ∃ rest : List Event,
      (run cfg w fs).2.2
        = (get_budget_summary w).2
          ++ (get_categories cfg.included_groups_env w.categoriesResp).2
          ++ (get_recent_transactions (cats.map (fun c => c.name)) w fs).2.2 ++ rest ∧
      (∀ e ∈ rest, e.isCursorWrite = false) ∧
      (run cfg w fs).2.1.cursor
        = (get_recent_transactions (cats.map (fun c => c.name)) w fs).2.1.cursor := by
  have hie : cats.isEmpty = false := by
    cases cats with
    | nil => exact absurd rfl hne
    | cons a l => rfl
  by_cases hsv : w.saveReportOk = true
  · by_cases hem : w.emailOk = true
    · refine ⟨[Event.writeReport ("ynab_report_" ++ w.nowFileStamp ++ ".html")]
          ++ (cleanup_old_reports cfg w
              { (get_recent_transactions (cats.map (fun c => c.name)) w fs).2.1 with
                reports := (get_recent_transactions (cats.map (fun c => c.name)) w fs).2.1.reports
                  ++ [{ name := "ynab_report_" ++ w.nowFileStamp ++ ".html", mtime := w.now,
                        content := create_html_table cats (get_budget_summary w).1
                          (get_recent_transactions (cats.map (fun c => c.name)) w fs).1
                          w.nowTimestamp, removable := true }] }).2
          ++ [Event.sendEmail, Event.log .runCompletedInfo], ?_, ?_, ?_⟩
      · simp only [run, hcat, hie, save_html_report, hsv, if_true, send_email, hem,
          Bool.false_eq_true, if_false]
        simp [List.append_assoc]
      · intro e he
        simp only [List.append_assoc, List.cons_append, List.nil_append, List.mem_cons,
          List.mem_append, List.not_mem_nil, or_false] at he
        rcases he with rfl | he | rfl | rfl
        · rfl
        · exact (cleanup_events_not_cursor _ _ _ e he).1
        · rfl
        · rfl
      · simp only [run, hcat, hie, save_html_report, hsv, if_true, send_email, hem,
          Bool.false_eq_true, if_false]
        rw [cleanup_cursor]
    · refine ⟨[Event.writeReport ("ynab_report_" ++ w.nowFileStamp ++ ".html")]
          ++ (cleanup_old_reports cfg w
              { (get_recent_transactions (cats.map (fun c => c.name)) w fs).2.1 with
                reports := (get_recent_transactions (cats.map (fun c => c.name)) w fs).2.1.reports
                  ++ [{ name := "ynab_report_" ++ w.nowFileStamp ++ ".html", mtime := w.now,
                        content := create_html_table cats (get_budget_summary w).1
                          (get_recent_transactions (cats.map (fun c => c.name)) w fs).1
                          w.nowTimestamp, removable := true }] }).2
          ++ [Event.log .emailError, Event.log .runError]
          ++ (if w.errorEmailOk = true then [Event.sendErrorEmail] else []), ?_, ?_, ?_⟩
      · simp only [run, hcat, hie, save_html_report, hsv, if_true, send_email, hem,
          Bool.false_eq_true, if_false, runFail]
        simp [List.append_assoc]
      · intro e he
        simp only [List.append_assoc, List.cons_append, List.nil_append, List.mem_cons,
          List.mem_append, List.not_mem_nil, or_false] at he
        rcases he with rfl | he | rfl | rfl | he
        · rfl
        · exact (cleanup_events_not_cursor _ _ _ e he).1
        · rfl
        · rfl
        · by_cases herr : w.errorEmailOk = true
          · rw [if_pos herr] at he
            simp only [List.mem_singleton] at he
            subst he
            rfl
          · rw [if_neg herr] at he
            simp at he
      · simp only [run, hcat, hie, save_html_report, hsv, if_true, send_email, hem,
          Bool.false_eq_true, if_false, runFail]
        rw [cleanup_cursor]
  · refine ⟨[Event.log .saveReportError, Event.log .runError]
        ++ (if w.errorEmailOk = true then [Event.sendErrorEmail] else []), ?_, ?_, ?_⟩
    · simp only [run, hcat, hie, save_html_report, hsv, Bool.false_eq_true, if_false, runFail]
      simp [List.append_assoc]
    · intro e he
      simp only [List.append_assoc, List.cons_append, List.nil_append, List.mem_cons,
        List.mem_append, List.not_mem_nil, or_false] at he
      rcases he with rfl | rfl | he
      · rfl
      · rfl
      · by_cases herr : w.errorEmailOk = true
        · rw [if_pos herr] at he
          simp only [List.mem_singleton] at he
          subst he
          rfl
        · rw [if_neg herr] at he
          simp at he
    · simp only [run, hcat, hie, save_html_report, hsv, Bool.false_eq_true, if_false, runFail]

/-- Example budget summary used in concrete instances. -/
def sumEx : BudgetSummary :=
  { budget_name := "B", month_name := "September 2025",
    ready_to_assign := Money.ofMilli 1000, credit_debt_total := Money.ofMilli 0 }

/-- Example category group payload. -/
def grpEx : ApiCategoryGroup :=
  { name := "Essential", hidden := false,
    categories := [{ name := "Food", hidden := false, deleted := false,
                     balance := 12500, budgeted := 20000, activity := -7500 }] }

/-- Example configuration. -/
def cfgEx : Config :=
  { ynab_token := "t", budget_id := "b", email_host := "h", email_port := 587,
    email_user := "u", email_pass := "p", to_email := "e", report_path := "r",
    retain_report_days := 30, included_groups_env := "Essential,Medical" }

/-- Example filesystem: no cursor file, empty existing report directory. -/
def fsEx : FS := { cursor := none, reportDirExists := true, reports := [] }

/-- Example world in which every call succeeds except the transactions
fetch, which returns HTTP 500. -/
def wEx : World where
  budgetResp := .ok "B"
  monthResp := .ok { month := "2025-09-01", to_be_budgeted := 5000 }
  accountsResp := .ok [{ type := "creditCard", closed := false, deleted := false, balance := -10000 }]
  categoriesResp := .ok [grpEx]
  txnResp := .error (.http 500)
  saveReportOk := true
  emailOk := true
  errorEmailOk := true
  nowMonthName := "September 2025"
  nowTimestamp := "September 30, 2025 at 08:00 AM"
  nowFileStamp := "20250930_080000"
  now := 1759219200
  sinceDate := "2025-09-29T08:00:00Z"

/-- Example approved transaction in a tracked category. -/
def txEx : ApiTransaction :=
  { approved := true, deleted := false, category_name := some "Food", amount := -4500,
    date := "2025-09-29", payee_name := some "Store", memo := none }

/-- Example unapproved transaction (filtered out). -/
def txEx2 : ApiTransaction :=
  { approved := false, deleted := false, category_name := some "Food", amount := -100,
    date := "2025-09-30", payee_name := none, memo := some "x" }

/-- Example transactions payload. -/
def payloadEx : TxnPayload := { transactions := [txEx, txEx2], server_knowledge := 500 }

/-- Example world in which every call succeeds. -/
def wEx2 : World := { wEx with txnResp := .ok payloadEx }

/-- Example world whose budget-summary fetch fails. -/
def wBudgetFail : World := { wEx2 with budgetResp := .error .malformed }

/-- Example world whose categories fetch fails. -/
def wCatFail : World := { wEx2 with categoriesResp := .error .malformed }

/-- C2 counterexample: `create_html_table` interpolates `datetime.now()`
(PYnab.py line 411, "Generated on"), so two calls with identical (budget
summary, categories, transactions) arguments but different current times
return different HTML strings — the renderer is not a pure function of the
three inputs alone. -/
theorem create_html_table_depends_on_now :
    create_html_table [] sumEx [] "A" ≠ create_html_table [] sumEx [] "B" := by
  intro h
  have h2 := congrArg String.data h
  simp only [create_html_table, categoryHeaderHtml, String.data_append, List.append_assoc,
    List.append_right_inj] at h2
  rw [List.append_left_inj] at h2
  exact absurd (String.ext h2) (by decide)

/-- C2 (amended): the report renderer is a pure function of its three data
inputs and the current time: any two calls with equal budget summary,
categories, transactions and equal "now" return the same HTML string. -/
theorem create_html_table_pure_given_now
    (c₁ c₂ : List Category) (b₁ b₂ : BudgetSummary) (t₁ t₂ : List Txn) (n₁ n₂ : String)
    (hc : c₁ = c₂) (hb : b₁ = b₂) (ht : t₁ = t₂) (hn : n₁ = n₂) :
    create_html_table c₁ b₁ t₁ n₁ = create_html_table c₂ b₂ t₂ n₂ := by
  subst hc hb ht hn
  rfl

theorem create_html_table_pure_given_now_witness :
    create_html_table [] sumEx [] "A" = create_html_table [] sumEx [] "A" :=
  create_html_table_pure_given_now [] [] sumEx sumEx [] [] "A" "A" rfl rfl rfl rfl

/-- C3: for every transactions response, each element of the returned list
comes from a payload transaction that is approved, not deleted, and whose
category name lies in the report's category set, and the returned list is
sorted descending by its date strings. -/
theorem transactions_filter_sorted (names : List String) (w : World) (fs : FS)
    (payload : TxnPayload) (h : w.txnResp = .ok payload) :
    (∀ t ∈ (get_recent_transactions names w fs).1,
        ∃ raw ∈ payload.transactions, raw.approved = true ∧ raw.deleted = false ∧
          raw.category_name = some t.category ∧ t.category ∈ names ∧
          ∃ fd, formatTxnDate? raw.date = some fd ∧ t = mkTxn raw t.category fd) ∧
    List.Pairwise txnDateGe (get_recent_transactions names w fs).1 := by
  cases hf : filterTxns names payload.transactions with
  | none =>
      constructor
      · intro t ht
        simp [get_recent_transactions, h, hf] at ht
      · simp [get_recent_transactions, h, hf]
  | some recent =>
      have hout : (get_recent_transactions names w fs).1
          = List.insertionSort txnDateGe recent := by
        simp [get_recent_transactions, h, hf]
      constructor
      · intro t ht
        rw [hout] at ht
        exact mem_filterTxns names payload.transactions recent hf t
          ((List.mem_insertionSort txnDateGe).mp ht)
      · rw [hout]
        exact List.sorted_insertionSort txnDateGe recent

theorem transactions_filter_sorted_witness :
    (∀ t ∈ (get_recent_transactions ["Food"] wEx2 fsEx).1,
        ∃ raw ∈ payloadEx.transactions, raw.approved = true ∧ raw.deleted = false ∧
          raw.category_name = some t.category ∧ t.category ∈ ["Food"] ∧
          ∃ fd, formatTxnDate? raw.date = some fd ∧ t = mkTxn raw t.category fd) ∧
    List.Pairwise txnDateGe (get_recent_transactions ["Food"] wEx2 fsEx).1 :=
  transactions_filter_sorted ["Food"] wEx2 fsEx payloadEx rfl

/-- C4: whenever `get_categories` succeeds, every returned category's
group is in the configured include-list, and no returned category belongs
to the literal group "Credit Card Payments", even when that group is
listed. -/
theorem categories_group_filter (env : String)
    (resp : Except ApiError (List ApiCategoryGroup)) (cats : List Category) (c : Category)
    (h : (get_categories env resp).1 = .ok cats) (hc : c ∈ cats) :
    c.group ∈ includedGroupsOf env ∧ c.group ≠ "Credit Card Payments" := by
  by_cases henv : env = ""
  · simp [get_categories, henv] at h
  · cases resp with
    | error e => simp [get_categories, henv] at h
    | ok groups =>
        simp only [get_categories, if_neg henv, Except.ok.injEq] at h
        subst h
        obtain ⟨lc, hlc, hclc⟩ := List.mem_flatten.mp hc
        obtain ⟨g, hg, rfl⟩ := List.mem_map.mp hlc
        by_cases hcond : g.hidden = true ∨ g.name = "Credit Card Payments"
            ∨ g.name ∉ includedGroupsOf env
        · rw [groupCategories, if_pos hcond] at hclc
          simp at hclc
        · rw [groupCategories, if_neg hcond] at hclc
          push_neg at hcond
          obtain ⟨c', hc', heq⟩ := List.mem_filterMap.mp hclc
          have hgrp : c.group = g.name := by
            by_cases hh : c'.hidden = false ∧ c'.deleted = false
            · rw [if_pos hh] at heq
              cases heq
              rfl
            · rw [if_neg hh] at heq
              cases heq
          rw [hgrp]
          exact ⟨hcond.2.2, hcond.2.1⟩

theorem categories_group_filter_witness :
    ({ group := "Essential", name := "Food", balance := Money.ofMilli 12500,
       budgeted := Money.ofMilli 20000, activity := Money.ofMilli (-7500) } : Category).group
        ∈ includedGroupsOf "Essential,Medical" ∧
    ({ group := "Essential", name := "Food", balance := Money.ofMilli 12500,
       budgeted := Money.ofMilli 20000, activity := Money.ofMilli (-7500) } : Category).group
        ≠ "Credit Card Payments" :=
  categories_group_filter "Essential,Medical" (.ok [grpEx]) _ _ rfl
    (List.mem_singleton.mpr rfl)

/-- C5: `format_currency` renders 0 as "$0.00", -5 dollars as "-$5.00" and
1234.5 dollars as "$1,234.50" (the `Money.toRat` conjuncts tie the
milliunit encodings to those values); in general every negative amount is
rendered as `-$` before the grouped two-decimal rendering of its absolute
value and every non-negative amount as `$` before it, where `centsRender`
always consists of a thousands-separated integer part, a dot, and exactly
two decimal digits. -/
theorem format_currency_spec :
    format_currency (Money.ofMilli 0) = "$0.00" ∧
    format_currency (Money.ofMilli (-5000)) = "-$5.00" ∧
    format_currency (Money.ofMilli 1234500) = "$1,234.50" ∧
    (Money.ofMilli 0).toRat = 0 ∧ (Money.ofMilli (-5000)).toRat = -5 ∧
    (Money.ofMilli 1234500).toRat = 1234.5 ∧
    (∀ m : Money, m.toRat < 0 ↔ m.mills < 0) ∧
    (∀ m : Money, m.mills < 0 →
        format_currency m = "-$" ++ centsRender (absCents m)) ∧
    (∀ m : Money, 0 ≤ m.mills →
        format_currency m = "$" ++ centsRender (absCents m)) ∧
    (∀ c : Nat, centsRender c = groupThousands (c / 100) ++ "." ++ pad2 (c % 100)) ∧
    (∀ c : Nat, (pad2 (c % 100)).length = 2) := by
  have hpad : ∀ k, k < 100 → (pad2 k).length = 2 := by decide
  refine ⟨by decide, by decide, by decide, ?_, ?_, ?_, ?_, ?_, ?_, fun c => rfl, ?_⟩
  · norm_num [Money.toRat, Money.ofMilli]
  · norm_num [Money.toRat, Money.ofMilli]
  · norm_num [Money.toRat, Money.ofMilli]
  · intro m
    rw [Money.toRat, div_neg_iff]
    constructor
    · rintro (⟨-, h2⟩ | ⟨h1, -⟩)
      · norm_num at h2
      · exact_mod_cast h1
    · intro h
      exact Or.inr ⟨by exact_mod_cast h, by norm_num⟩
  · intro m h
    rw [format_currency, if_pos h]
  · intro m h
    rw [format_currency, if_neg (by omega)]
  · intro c
    exact hpad (c % 100) (Nat.mod_lt _ (by norm_num))

theorem format_currency_spec_witness :
    format_currency (Money.ofMilli (-1)) = "-$" ++ centsRender (absCents (Money.ofMilli (-1))) ∧
    format_currency (Money.ofMilli 1) = "$" ++ centsRender (absCents (Money.ofMilli 1)) := by
  have h := format_currency_spec
  exact ⟨h.2.2.2.2.2.2.2.1 (Money.ofMilli (-1)) (by decide),
         h.2.2.2.2.2.2.2.2.1 (Money.ofMilli 1) (by decide)⟩

/-- C6: the sync cursor round-trips — saving any integer and reading it
back yields the same value; and when the cursor file is absent the read
yields no cursor, which makes the transactions fetch use the
`since_date` (last-24-hours) query rather than the delta query. -/
theorem cursor_roundtrip_spec :
    (∀ (v : Int) (fs : FS), (get_server_knowledge (save_server_knowledge v fs).1).1 = some v) ∧
    (∀ fs : FS, fs.cursor = none → (get_server_knowledge fs).1 = none) ∧
    (∀ (fs : FS) (w : World) (names : List String), fs.cursor = none →
        transactionsQuery (get_server_knowledge fs).1 w.sinceDate = .since w.sinceDate ∧
        Event.apiCall (.transactions (.since w.sinceDate))
          ∈ (get_recent_transactions names w fs).2.2) := by
  have hget : ∀ fs : FS, fs.cursor = none → get_server_knowledge fs = (none, []) := by
    intro fs h
    simp [get_server_knowledge, h]
  refine ⟨?_, fun fs h => by rw [hget fs h], ?_⟩
  · intro v fs
    simp only [save_server_knowledge, get_server_knowledge,
      trimChars_eq_self (intToChars_not_space v), parsePyInt_intToChars]
  · intro fs w names h
    refine ⟨by rw [hget fs h]; rfl, ?_⟩
    cases htx : w.txnResp with
    | error e =>
        simp [get_recent_transactions, htx, hget fs h, transactionsQuery]
    | ok payload =>
        cases hf : filterTxns names payload.transactions with
        | none =>
            simp [get_recent_transactions, htx, hget fs h, hf, save_server_knowledge,
              transactionsQuery]
        | some recent =>
            simp [get_recent_transactions, htx, hget fs h, hf, save_server_knowledge,
              transactionsQuery]

theorem cursor_roundtrip_spec_witness :
    (get_server_knowledge (save_server_knowledge 500 fsEx).1).1 = some 500 ∧
    (get_server_knowledge fsEx).1 = none ∧
    transactionsQuery (get_server_knowledge fsEx).1 wEx.sinceDate = .since wEx.sinceDate ∧
    Event.apiCall (.transactions (.since wEx.sinceDate))
      ∈ (get_recent_transactions ["Food"] wEx fsEx).2.2 :=
  ⟨cursor_roundtrip_spec.1 500 fsEx, cursor_roundtrip_spec.2.1 fsEx rfl,
   (cursor_roundtrip_spec.2.2 fsEx wEx ["Food"] rfl).1,
   (cursor_roundtrip_spec.2.2 fsEx wEx ["Food"] rfl).2⟩

/-- C1 counterexample: in a run whose transaction fetch fails (HTTP 500)
while everything else succeeds, the run still completes normally — exit
code 0 and the report email is sent — so a transaction-fetch failure does
not propagate and abort the run, contrary to the claim. -/
theorem txn_failure_does_not_abort :
    wEx.txnResp = .error (.http 500) ∧ (run cfgEx wEx fsEx).1 = 0 ∧
    Event.sendEmail ∈ (run cfgEx wEx fsEx).2.2 :=
  ⟨rfl, by decide, by decide⟩

/-- C1 (amended): the error tiers are — a budget-summary failure degrades
to the placeholder defaults plus a warning and the run continues; a
category-fetch failure propagates (the run aborts with exit code 1); a
transaction-fetch failure degrades to an empty transaction list plus a
warning, leaving the filesystem untouched, and the run continues. -/
theorem error_tiers_spec :
    (∀ (w : World) (err : ApiError), w.budgetResp = .error err →
        get_budget_summary w
          = (defaultSummary w.nowMonthName, [.apiCall .budget, .log .summaryFetchWarning])) ∧
    (∀ (env : String) (err : ApiError), env ≠ "" →
        (get_categories env (.error err)).1 = .error err) ∧
    (∀ (cfg : Config) (w : World) (fs : FS) (err : ApiError),
        cfg.included_groups_env ≠ "" → w.categoriesResp = .error err →
        (run cfg w fs).1 = 1) ∧
    (∀ (names : List String) (w : World) (fs : FS) (err : ApiError),
        w.txnResp = .error err →
        (get_recent_transactions names w fs).1 = [] ∧
        Event.log .txnFetchWarning ∈ (get_recent_transactions names w fs).2.2 ∧
        (get_recent_transactions names w fs).2.1 = fs) := by
  have hcats : ∀ (env : String) (err : ApiError), env ≠ "" →
      (get_categories env (.error err)).1 = .error err := by
    intro env err henv
    simp [get_categories, henv]
  refine ⟨?_, hcats, ?_, ?_⟩
  · intro w err h
    simp [get_budget_summary, h]
  · intro cfg w fs err henv hcat
    have h := hcats cfg.included_groups_env err henv
    rw [← hcat] at h
    simp [run, h, runFail]
  · intro names w fs err h
    refine ⟨by simp [get_recent_transactions, h], ?_, by simp [get_recent_transactions, h]⟩
    simp [get_recent_transactions, h]

theorem error_tiers_spec_witness :
    get_budget_summary wBudgetFail
      = (defaultSummary "September 2025", [.apiCall .budget, .log .summaryFetchWarning]) ∧
    (get_categories "Essential" (.error .malformed)).1 = .error .malformed ∧
    (run cfgEx wCatFail fsEx).1 = 1 ∧
    (get_recent_transactions ["Food"] wEx fsEx).1 = [] := by
  have h := error_tiers_spec
  exact ⟨h.1 wBudgetFail .malformed rfl,
         h.2.1 "Essential" .malformed (by decide),
         h.2.2.1 cfgEx wCatFail fsEx .malformed (by decide) rfl,
         (h.2.2.2 ["Food"] wEx fsEx (.http 500) rfl).1⟩

/-- C7: once the transactions fetch succeeds in a run, the new
server-knowledge cursor is written immediately after the transactions
API call — before any report write or email — no other cursor write occurs
anywhere in the run, and the final filesystem state holds the new cursor
value regardless of later save/cleanup/email failures. -/
theorem cursor_persisted_immediately (cfg : Config) (w : World) (fs : FS)
    (payload : TxnPayload) (cats : List Category)
    (htx : w.txnResp = .ok payload)
    (hcat : (get_categories cfg.included_groups_env w.categoriesResp).1 = .ok cats)
    (hne : cats ≠ []) :
    ∃ (q : Query) (pre post : List Event),
      (run cfg w fs).2.2
        = pre ++ Event.writeCursor (intToChars payload.server_knowledge) :: post ∧
      pre.getLast? = some (Event.apiCall (.transactions q)) ∧
      (∀ c, Event.writeCursor c ∉ pre) ∧
      (∀ n, Event.writeReport n ∉ pre) ∧
      Event.sendEmail ∉ pre ∧
      (∀ c, Event.writeCursor c ∉ post) ∧
      (run cfg w fs).2.1.cursor = some (intToChars payload.server_knowledge) := by
  obtain ⟨rest, hrest, hrestnc, hcur⟩ := run_after_transactions cfg w fs cats hcat hne
  obtain ⟨tail, htr, htail, hcur2⟩ :=
    get_recent_transactions_ok_shape (cats.map (fun c => c.name)) w fs payload htx
  refine ⟨transactionsQuery (get_server_knowledge fs).1 w.sinceDate,
      (get_budget_summary w).2 ++ (get_categories cfg.included_groups_env w.categoriesResp).2
        ++ (get_server_knowledge fs).2
        ++ [Event.apiCall (.transactions (transactionsQuery (get_server_knowledge fs).1 w.sinceDate))],
      Event.log .savedKnowledgeInfo :: (tail ++ rest), ?_, ?_, ?_, ?_, ?_, ?_, ?_⟩
  · rw [hrest, htr]
    simp [List.append_assoc]
  · simp [List.getLast?_append]
  · intro c hc
    simp only [List.append_assoc, List.mem_append, List.mem_singleton] at hc
    rcases hc with hc | hc | hc | hc
    · have h := get_budget_summary_events w _ hc
      simp [Event.isPassive] at h
    · have h := get_categories_events _ _ _ hc
      simp [Event.isPassive] at h
    · have h := get_server_knowledge_events fs _ hc
      simp [Event.isPassive] at h
    · simp at hc
  · intro n hn
    simp only [List.append_assoc, List.mem_append, List.mem_singleton] at hn
    rcases hn with hn | hn | hn | hn
    · have h := get_budget_summary_events w _ hn
      simp [Event.isPassive] at h
    · have h := get_categories_events _ _ _ hn
      simp [Event.isPassive] at h
    · have h := get_server_knowledge_events fs _ hn
      simp [Event.isPassive] at h
    · simp at hn
  · intro hs
    simp only [List.append_assoc, List.mem_append, List.mem_singleton] at hs
    rcases hs with hs | hs | hs | hs
    · have h := get_budget_summary_events w _ hs
      simp [Event.isPassive] at h
    · have h := get_categories_events _ _ _ hs
      simp [Event.isPassive] at h
    · have h := get_server_knowledge_events fs _ hs
      simp [Event.isPassive] at h
    · simp at hs
  · intro c hc
    rcases List.mem_cons.mp hc with hc | hc
    · simp at hc
    · rcases List.mem_append.mp hc with hc | hc
      · have h := htail _ hc
        simp [Event.isPassive] at h
      · have h := hrestnc _ hc
        simp [Event.isCursorWrite] at h
  · rw [hcur]
    exact hcur2

/-- The processed categories produced from `grpEx`. -/
def catsEx : List Category :=
  [{ group := "Essential", name := "Food", balance := Money.ofMilli 12500,
     budgeted := Money.ofMilli 20000, activity := Money.ofMilli (-7500) }]

theorem cursor_persisted_immediately_witness :
    ∃ (q : Query) (pre post : List Event),
      (run cfgEx wEx2 fsEx).2.2
        = pre ++ Event.writeCursor (intToChars payloadEx.server_knowledge) :: post ∧
      pre.getLast? = some (Event.apiCall (.transactions q)) ∧
      (∀ c, Event.writeCursor c ∉ pre) ∧
      (∀ n, Event.writeReport n ∉ pre) ∧
      Event.sendEmail ∉ pre ∧
      (∀ c, Event.writeCursor c ∉ post) ∧
      (run cfgEx wEx2 fsEx).2.1.cursor = some (intToChars payloadEx.server_knowledge) :=
  cursor_persisted_immediately cfgEx wEx2 fsEx payloadEx catsEx rfl rfl (by decide)

/-- C8: with the report directory present, the retention sweep keeps
exactly the files that are not (report-named, older than now minus the
retention window, and removable); every old removable report file gets a
delete action; and a failing deletion is logged while its file stays, the
sweep of the remaining files continuing regardless. -/
theorem retention_sweep_spec (cfg : Config) (w : World) (fs : FS)
    (hdir : fs.reportDirExists = true) :
    (∀ f, f ∈ (cleanup_old_reports cfg w fs).1.reports ↔
        f ∈ fs.reports ∧ ¬(isReportFile f.name = true
          ∧ f.mtime < w.now - cfg.retain_report_days * 86400 ∧ f.removable = true)) ∧
    (∀ f ∈ fs.reports, isReportFile f.name = true →
        f.mtime < w.now - cfg.retain_report_days * 86400 → f.removable = true →
        Event.deleteFile f.name ∈ (cleanup_old_reports cfg w fs).2) ∧
    (∀ f ∈ fs.reports, isReportFile f.name = true →
        f.mtime < w.now - cfg.retain_report_days * 86400 → f.removable = false →
        Event.log (.deleteError f.name) ∈ (cleanup_old_reports cfg w fs).2
          ∧ f ∈ (cleanup_old_reports cfg w fs).1.reports) := by
  have hd : ¬fs.reportDirExists = false := by simp [hdir]
  have h1 : (cleanup_old_reports cfg w fs).1.reports
      = (sweep (w.now - cfg.retain_report_days * 86400) fs.reports).1 := by
    simp [cleanup_old_reports, hd]
  have h2 : (cleanup_old_reports cfg w fs).2
      = (sweep (w.now - cfg.retain_report_days * 86400) fs.reports).2 := by
    simp [cleanup_old_reports, hd]
  refine ⟨?_, ?_, ?_⟩
  · intro f
    rw [h1]
    exact mem_sweep_fst _ _ f
  · intro f hf ha hb hc
    rw [h2]
    exact sweep_deletes _ _ f hf ha hb hc
  · intro f hf ha hb hc
    refine ⟨?_, ?_⟩
    · rw [h2]
      exact sweep_logs_failure _ _ f hf ha hb hc
    · rw [h1]
      exact (mem_sweep_fst _ _ f).mpr ⟨hf, fun hp => absurd hp.2.2 (by simp [hc])⟩

/-- An old removable report file (well before the retention cutoff). -/
def oldRmEx : FileEntry :=
  { name := "ynab_report_20250101_000000.html", mtime := 1735689600,
    content := "x", removable := true }

/-- An old report file whose deletion fails. -/
def oldStuckEx : FileEntry :=
  { name := "ynab_report_20250102_000000.html", mtime := 1735776000,
    content := "y", removable := false }

/-- A recent report file (within the retention window). -/
def youngEx : FileEntry :=
  { name := "ynab_report_20250929_000000.html", mtime := 1759104000,
    content := "z", removable := true }

/-- A report directory holding the three example files. -/
def fsRep : FS := { cursor := none, reportDirExists := true,
                    reports := [oldRmEx, oldStuckEx, youngEx] }

theorem retention_sweep_spec_witness :
    Event.deleteFile oldRmEx.name ∈ (cleanup_old_reports cfgEx wEx fsRep).2 ∧
    (Event.log (.deleteError oldStuckEx.name) ∈ (cleanup_old_reports cfgEx wEx fsRep).2
      ∧ oldStuckEx ∈ (cleanup_old_reports cfgEx wEx fsRep).1.reports) ∧
    (youngEx ∈ (cleanup_old_reports cfgEx wEx fsRep).1.reports ↔
      youngEx ∈ fsRep.reports ∧ ¬(isReportFile youngEx.name = true
        ∧ youngEx.mtime < wEx.now - cfgEx.retain_report_days * 86400
        ∧ youngEx.removable = true)) := by
  have h := retention_sweep_spec cfgEx wEx fsRep rfl
  exact ⟨h.2.1 oldRmEx (by decide) (by decide) (by decide) (by decide),
         h.2.2 oldStuckEx (by decide) (by decide) (by decide) (by decide),
         h.1 youngEx⟩

/-- C9: whenever any required environment variable (API token, budget id,
SMTP user, SMTP password, recipient, included-groups list) is absent or
empty, constructing the emailer raises a configuration error, and the
process exits 1 having performed no observable action — in particular no
network call. -/
theorem missing_config_fails_fast (env : Env) (w : World) (fs : FS) (v : String)
    (hv : v ∈ requiredVars) (hfal : falsyEnv (getenv env v) = true) :
    (∃ e, initEmailer env = .error e) ∧ mainRun env w fs = (1, fs, []) := by
  have hinit : ∃ e, initEmailer env = .error e := by
    cases hp : parsePyInt (trimChars ((getenv env "EMAIL_PORT").getD "587").data) with
    | none => exact ⟨.invalidInt "EMAIL_PORT", by simp [initEmailer, hp]⟩
    | some port =>
        cases hr : parsePyInt (trimChars ((getenv env "RETAIN_REPORT_DAYS").getD "30").data) with
        | none => exact ⟨.invalidInt "RETAIN_REPORT_DAYS", by simp [initEmailer, hp, hr]⟩
        | some rd =>
            have hmem : v ∈ requiredVars.filter (fun v' => falsyEnv (getenv env v')) :=
              List.mem_filter.mpr ⟨hv, hfal⟩
            have hne : (requiredVars.filter (fun v' => falsyEnv (getenv env v'))).isEmpty
                = false := by
              cases hl : requiredVars.filter (fun v' => falsyEnv (getenv env v')) with
              | nil => rw [hl] at hmem; simp at hmem
              | cons a l => rfl
            exact ⟨.missingVars (requiredVars.filter (fun v' => falsyEnv (getenv env v'))),
              by simp [initEmailer, hp, hr, hne]⟩
  obtain ⟨e, he⟩ := hinit
  exact ⟨⟨e, he⟩, by simp [mainRun, he]⟩

/-- An environment missing most required variables. -/
def envMissing : Env := [("YNAB_API_TOKEN", "t"), ("BUDGET_ID", "b")]

theorem missing_config_fails_fast_witness :
    (∃ e, initEmailer envMissing = .error e) ∧ mainRun envMissing wEx fsEx = (1, fsEx, []) :=
  missing_config_fails_fast envMissing wEx fsEx "TO_EMAIL" (by decide) (by decide)

/-- C10: when the category fetch succeeds but yields an empty list, the
run returns early — no transactions fetch, no cursor write, no report
write, no report email, no failure email — the filesystem is untouched and
the process exits with status 0. -/
theorem empty_categories_early_return (env : Env) (cfg : Config) (w : World) (fs : FS)
    (hinit : initEmailer env = .ok cfg)
    (hcat : (get_categories cfg.included_groups_env w.categoriesResp).1 = .ok []) :
    (mainRun env w fs).1 = 0 ∧ (mainRun env w fs).2.1 = fs ∧
    (∀ q, Event.apiCall (.transactions q) ∉ (mainRun env w fs).2.2) ∧
    (∀ c, Event.writeCursor c ∉ (mainRun env w fs).2.2) ∧
    (∀ n, Event.writeReport n ∉ (mainRun env w fs).2.2) ∧
    Event.sendEmail ∉ (mainRun env w fs).2.2 ∧
    Event.sendErrorEmail ∉ (mainRun env w fs).2.2 := by
  have hmain : mainRun env w fs = run cfg w fs := by simp [mainRun, hinit]
  have hrun : run cfg w fs
      = (0, fs, (get_budget_summary w).2
          ++ ((get_categories cfg.included_groups_env w.categoriesResp).2
            ++ [Event.log .noCategoriesWarning])) := by
    simp [run, hcat]
  have hpass : ∀ e ∈ (mainRun env w fs).2.2, e.isPassive = true := by
    rw [hmain, hrun]
    intro e he
    simp only [List.mem_append, List.mem_singleton] at he
    rcases he with he | he | rfl
    · exact get_budget_summary_events w e he
    · exact get_categories_events _ _ e he
    · rfl
  refine ⟨by rw [hmain, hrun], by rw [hmain, hrun], fun q hq => ?_, fun c hc => ?_,
    fun n hn => ?_, fun hs => ?_, fun hs2 => ?_⟩
  · have h := hpass _ hq
    simp [Event.isPassive] at h
  · have h := hpass _ hc
    simp [Event.isPassive] at h
  · have h := hpass _ hn
    simp [Event.isPassive] at h
  · have h := hpass _ hs
    simp [Event.isPassive] at h
  · have h := hpass _ hs2
    simp [Event.isPassive] at h

/-- A complete environment (all required variables present). -/
def envOk : Env :=
  [("YNAB_API_TOKEN", "t"), ("BUDGET_ID", "b"), ("EMAIL_USER", "u"), ("EMAIL_PASS", "p"),
   ("TO_EMAIL", "e"), ("INCLUDED_GROUPS", "Essential")]

/-- The configuration `initEmailer` builds from `envOk`. -/
def cfgOk : Config :=
  { ynab_token := "t", budget_id := "b", email_host := "smtp.gmail.com", email_port := 587,
    email_user := "u", email_pass := "p", to_email := "e", report_path := "",
    retain_report_days := 30, included_groups_env := "Essential" }

/-- A world whose categories payload is an empty group list. -/
def wEmptyCats : World := { wEx2 with categoriesResp := .ok [] }

theorem empty_categories_early_return_witness :
    (mainRun envOk wEmptyCats fsEx).1 = 0 ∧ (mainRun envOk wEmptyCats fsEx).2.1 = fsEx ∧
    (∀ q, Event.apiCall (.transactions q) ∉ (mainRun envOk wEmptyCats fsEx).2.2) ∧
    (∀ c, Event.writeCursor c ∉ (mainRun envOk wEmptyCats fsEx).2.2) ∧
    (∀ n, Event.writeReport n ∉ (mainRun envOk wEmptyCats fsEx).2.2) ∧
    Event.sendEmail ∉ (mainRun envOk wEmptyCats fsEx).2.2 ∧
    Event.sendErrorEmail ∉ (mainRun envOk wEmptyCats fsEx).2.2 :=
  empty_categories_early_return envOk cfgOk wEmptyCats fsEx rfl rfl
